import Mathlib

/-!
# Verification of joshuto's command parser, selection, tab and column logic

A shallow embedding of the joshuto file manager's code:

* `src/commands/mod.rs` — `parse_command`, embedded as `Joshuto.parseCommand`;
* `src/commands/selection.rs` — `SelectFiles::execute`, embedded as
  `Joshuto.selectFilesExecute`;
* `src/commands/tab_operations.rs` — `CloseTab::close_tab`, embedded as
  `Joshuto.close_tab`;
* `src/context.rs` — `JoshutoContext`, embedded as `Joshuto.JoshutoContext`;
* `src/joshuto/structs.rs` — `JoshutoColumn::update`, embedded as
  `Joshuto.JoshutoColumn.update`.

Strings are modelled as `List Char` (the Rust code only manipulates
byte-oriented `&str` slices through `find`, `trim_start`, `split_whitespace`
and integer parsing, all of which are reproduced below).  Filesystem reads
(`fs::read_dir`, `fs::metadata`) are modelled by passing their result as an
explicit `Except` argument.
-/

namespace Joshuto

/-! ## String primitives

Models of the `&str` operations used by `parse_command`.
-/

/-- Model of Rust `s.find(' ')` followed by slicing: splits the input at the
first space, returning the part before the space and the part after it.
When there is no space the whole input is the first component and the second
is empty (mirroring `None => (s, "")`). -/
def breakAtSpace : List Char → List Char × List Char
  | [] => ([], [])
  | c :: cs =>
    if c = ' ' then ([], cs)
    else
      let p := breakAtSpace cs
      (c :: p.1, p.2)

/-- Model of Rust `str::trim_start` (whitespace as recognised by
`Char.isWhitespace`: space, tab, CR, LF). -/
def trimStart : List Char → List Char
  | [] => []
  | c :: cs => if c.isWhitespace then trimStart cs else c :: cs

/-- Helper for `splitWhitespace`: accumulates the current word (reversed). -/
def splitWhitespaceGo : List Char → List Char → List (List Char)
  | [], acc => if acc = [] then [] else [acc.reverse]
  | c :: cs, acc =>
    if c.isWhitespace then
      if acc = [] then splitWhitespaceGo cs []
      else acc.reverse :: splitWhitespaceGo cs []
    else splitWhitespaceGo cs (c :: acc)

/-- Model of Rust `str::split_whitespace`: the whitespace-separated words of
the input, with no empty words. -/
def splitWhitespace (s : List Char) : List (List Char) :=
  splitWhitespaceGo s []

/-- Numeric value of a digit string, most significant digit first
(the usual base-10 accumulator fold). -/
def charsToNat (ds : List Char) : Nat :=
  ds.foldl (fun a c => 10 * a + (c.toNat - 48)) 0

/-- Largest value of Rust `usize` (64-bit platform). -/
def usizeMax : Nat := 2 ^ 64 - 1

/-- Largest value of Rust `i32`. -/
def i32Max : Nat := 2 ^ 31 - 1

/-- Model of the digit-consuming part of Rust `usize::from_str`, applied
after the optional sign has been stripped.  Error values are the strings
produced by `core::num::ParseIntError::to_string`. -/
def parseNatDigits (ds : List Char) : Except (List Char) Nat :=
  if ds = [] then .error "invalid digit found in string".data
  else if ds.all Char.isDigit then
    let n := charsToNat ds
    if n ≤ usizeMax then .ok n
    else .error "number too large to fit in target type".data
  else .error "invalid digit found in string".data

/-- Model of Rust `str::parse::<usize>` (`usize::from_str`): an optional
leading `+`, then decimal digits, range-checked against `usize::MAX`. -/
def parseUsize (s : List Char) : Except (List Char) Nat :=
  match s with
  | [] => .error "cannot parse integer from empty string".data
  | c :: cs =>
    if c = '+' then parseNatDigits cs
    else parseNatDigits (c :: cs)

/-- Model of the digit-consuming part of Rust `i32::from_str`, given the
sign (`1` or `-1`) read from the front of the string. -/
def parseI32Digits (ds : List Char) (sign : Int) : Except (List Char) Int :=
  if ds = [] then .error "invalid digit found in string".data
  else if ds.all Char.isDigit then
    let n := charsToNat ds
    if sign = 1 then
      if n ≤ i32Max then .ok (n : Int)
      else .error "number too large to fit in target type".data
    else
      if n ≤ 2 ^ 31 then .ok (-(n : Int))
      else .error "number too small to fit in target type".data
  else .error "invalid digit found in string".data

/-- Model of Rust `str::parse::<i32>` (`i32::from_str`): an optional sign,
then decimal digits, range-checked against the `i32` bounds. -/
def parseI32 (s : List Char) : Except (List Char) Int :=
  match s with
  | [] => .error "cannot parse integer from empty string".data
  | c :: cs =>
    if c = '+' then parseI32Digits cs 1
    else if c = '-' then parseI32Digits cs (-1)
    else parseI32Digits (c :: cs) 1

/-- Rendering of a `Nat` in decimal, as Rust `Display` for `usize` prints it. -/
def natToChars (n : Nat) : List Char :=
  if n = 0 then ['0'] else ((Nat.digits 10 n).map Nat.digitChar).reverse

/-- Rendering of an `Int` in decimal, as Rust `Display` for `i32` prints it. -/
def intToChars (i : Int) : List Char :=
  if i < 0 then '-' :: natToChars i.natAbs else natToChars i.toNat

/-! ## Error model (`src/error.rs` is not part of the sources; the kinds are
those the spec names in §7 plus the OS-error kind). -/

/-- Error kinds: `UnknownCommand`, `ParseError`, `IOInvalidData` and
`EnvVarNotPresent` appear in `parse_command` (src/commands/mod.rs); `IOOther`
is the kind for operating-system errors surfaced verbatim (spec §7) and is
what `quit` reports when a worker is busy. -/
inductive JoshutoErrorKind where
  | UnknownCommand
  | ParseError
  | IOInvalidData
  | EnvVarNotPresent
  | IOOther
  deriving DecidableEq, Repr

/-- A joshuto error: a kind plus a human-readable message
(`JoshutoError::new(kind, message)` in the Rust code). -/
structure JoshutoError where
  kind : JoshutoErrorKind
  msg : List Char
  deriving DecidableEq, Repr

/-! ## Commands -/

/-- `Options` from `src/io` as used by `paste_files`: the overwrite /
skip-existing flags, both defaulting to `false`. -/
structure FileOptions where
  overwrite : Bool := false
  skip_exist : Bool := false
  deriving DecidableEq, Repr

/-- Modelled from the spec: `SortType` (`src/util/sort.rs` is not among the
sources).  §4.3 names the sort keys: name, size, modified-time. -/
inductive SortType where
  | byName
  | bySize
  | byMtime
  deriving DecidableEq, Repr

/-- Modelled from the spec: `SortType::parse`, accepting exactly the known
sort-key names (§4.1: "any other argument must parse as a known sort-key
name"). -/
def SortType.parse (s : List Char) : Option SortType :=
  if s = "name".data then some .byName
  else if s = "size".data then some .bySize
  else if s = "mtime".data then some .byMtime
  else none

/-- Canonical name of a sort key, inverse of `SortType.parse`. -/
def SortType.name : SortType → List Char
  | .byName => "name".data
  | .bySize => "size".data
  | .byMtime => "mtime".data

/-- The closed command datatype: one constructor per command that
`parse_command` (src/commands/mod.rs) can construct.  Fields carry exactly
the data the Rust constructors receive. -/
inductive Command where
  | bulkRename
  | changeDirectory (path : List Char)
  | parentDirectory
  | closeTab
  | copyFiles
  | commandLine (pfx sfx : List Char)
  | cursorMoveHome
  | cursorMoveEnd
  | cursorMovePageUp
  | cursorMovePageDown
  | cursorMoveDown (n : Nat)
  | cursorMoveUp (n : Nat)
  | cutFiles
  | deleteFiles
  | forceQuit
  | newDirectory (path : List Char)
  | newTab
  | openFile
  | openFileWith
  | pasteFiles (options : FileOptions)
  | quit
  | reloadDirList
  | renameFile (path : List Char)
  | renameFileAppend
  | renameFilePrepend
  | search (pattern : List Char)
  | searchNext
  | searchPrev
  | selectFiles (toggle all : Bool)
  | setMode
  | shellCommand (cmd : List Char)
  | sortCmd (t : SortType)
  | sortReverse
  | tabSwitch (i : Int)
  | toggleHiddenFiles
  deriving DecidableEq, Repr

/-- The option-token loop of the `paste_files` branch of `parse_command`:
folds the whitespace-split tokens over an `Options` value, failing with
`IOInvalidData` on the first unknown token (src/commands/mod.rs lines
139-154). -/
def pasteOptionsLoop : List (List Char) → FileOptions → Except JoshutoError FileOptions
  | [], o => .ok o
  | t :: ts, o =>
    if t = "--overwrite".data then pasteOptionsLoop ts { o with overwrite := true }
    else if t = "--skip_exist".data then pasteOptionsLoop ts { o with skip_exist := true }
    else .error ⟨.IOInvalidData, "paste_files: unknown option ".data ++ t⟩

/-- The flag-token loop of the `select_files` branch of `parse_command`:
folds the whitespace-split tokens over the `(toggle, all)` pair, failing
with `IOInvalidData` on the first unknown token (src/commands/mod.rs lines
178-194). -/
def selectFlagsLoop : List (List Char) → Bool × Bool → Except JoshutoError (Bool × Bool)
  | [], f => .ok f
  | t :: ts, f =>
    if t = "--toggle".data then selectFlagsLoop ts (true, f.2)
    else if t = "--all".data then selectFlagsLoop ts (f.1, true)
    else .error ⟨.IOInvalidData, "select_files: unknown option ".data ++ t⟩

/-- Embedding of `parse_command` (src/commands/mod.rs lines 79-226).
`home` models the `HOME_DIR` lazy static (the value of `$HOME`, when
present).  The input is split at the first space into the command name and
the argument (the argument is trimmed at the start), then dispatched on the
name exactly as the Rust `match`. -/
def parseCommand (home : Option (List Char)) (s : List Char) :
    Except JoshutoError Command :=
  let command := (breakAtSpace s).1
  let arg := trimStart (breakAtSpace s).2
  if command = "bulk_rename".data then .ok .bulkRename
  else if command = "cd".data then
    if arg = [] then
      match home with
      | some h => .ok (.changeDirectory h)
      | none => .error ⟨.EnvVarNotPresent, "cd: Cannot find home directory".data⟩
    else if arg = "..".data then .ok .parentDirectory
    else .ok (.changeDirectory arg)
  else if command = "close_tab".data then .ok .closeTab
  else if command = "copy_files".data then .ok .copyFiles
  else if command = "console".data then .ok (.commandLine arg [])
  else if command = "cursor_move_home".data then .ok .cursorMoveHome
  else if command = "cursor_move_end".data then .ok .cursorMoveEnd
  else if command = "cursor_move_page_up".data then .ok .cursorMovePageUp
  else if command = "cursor_move_page_down".data then .ok .cursorMovePageDown
  else if command = "cursor_move_down".data then
    if arg = [] then .ok (.cursorMoveDown 1)
    else
      match parseUsize arg with
      | .ok n => .ok (.cursorMoveDown n)
      | .error e => .error ⟨.ParseError, e⟩
  else if command = "cursor_move_up".data then
    if arg = [] then .ok (.cursorMoveUp 1)
    else
      match parseUsize arg with
      | .ok n => .ok (.cursorMoveUp n)
      | .error e => .error ⟨.ParseError, e⟩
  else if command = "cut_files".data then .ok .cutFiles
  else if command = "delete_files".data then .ok .deleteFiles
  else if command = "force_quit".data then .ok .forceQuit
  else if command = "mkdir".data then
    if arg = [] then
      .error ⟨.IOInvalidData, "mkdir: missing additional parameter".data⟩
    else .ok (.newDirectory arg)
  else if command = "new_tab".data then .ok .newTab
  else if command = "open_file".data then .ok .openFile
  else if command = "open_file_with".data then .ok .openFileWith
  else if command = "paste_files".data then
    match pasteOptionsLoop (splitWhitespace arg) {} with
    | .ok o => .ok (.pasteFiles o)
    | .error e => .error e
  else if command = "quit".data then .ok .quit
  else if command = "reload_dir_list".data then .ok .reloadDirList
  else if command = "rename".data then
    if arg = [] then
      .error ⟨.IOInvalidData, "rename_file: Expected 1, got 0".data⟩
    else .ok (.renameFile arg)
  else if command = "rename_append".data then .ok .renameFileAppend
  else if command = "rename_prepend".data then .ok .renameFilePrepend
  else if command = "search".data then
    if arg = [] then
      .error ⟨.IOInvalidData, "search: Expected 1, got 0".data⟩
    else .ok (.search arg)
  else if command = "search_next".data then .ok .searchNext
  else if command = "search_prev".data then .ok .searchPrev
  else if command = "select_files".data then
    match selectFlagsLoop (splitWhitespace arg) (false, false) with
    | .ok f => .ok (.selectFiles f.1 f.2)
    | .error e => .error e
  else if command = "set_mode".data then .ok .setMode
  else if command = "shell".data then .ok (.shellCommand arg)
  else if command = "sort".data then
    if arg = "reverse".data then .ok .sortReverse
    else
      match SortType.parse arg with
      | some t => .ok (.sortCmd t)
      | none => .error ⟨.IOInvalidData, "sort: Unknown option ".data ++ arg⟩
  else if command = "tab_switch".data then
    if arg = [] then
      .error ⟨.IOInvalidData, "tab_switch: No option provided".data⟩
    else
      match parseI32 arg with
      | .ok i => .ok (.tabSwitch i)
      | .error e => .error ⟨.IOInvalidData, "tab_switch: ".data ++ e⟩
  else if command = "toggle_hidden".data then .ok .toggleHiddenFiles
  else .error ⟨.UnknownCommand, "Unknown command: ".data ++ command⟩

/-- The canonical rendering of a command.  For `SelectFiles`, `NewTab` and
`CloseTab` this is the `Display` implementation present in the sources
(src/commands/selection.rs lines 23-34, src/commands/tab_operations.rs).
Modelled from the spec for the remaining commands, whose files are not
among the sources: §4.2 says every command has "a stable canonical name
(used for parsing, for display, and for re-serializing)", so each renders
as its parse-table name followed by its argument. -/
def display : Command → List Char
  | .bulkRename => "bulk_rename".data
  | .changeDirectory p => "cd".data ++ ' ' :: p
  | .parentDirectory => "cd ..".data
  | .closeTab => "close_tab".data
  | .copyFiles => "copy_files".data
  | .commandLine p s => "console".data ++ ' ' :: (p ++ s)
  | .cursorMoveHome => "cursor_move_home".data
  | .cursorMoveEnd => "cursor_move_end".data
  | .cursorMovePageUp => "cursor_move_page_up".data
  | .cursorMovePageDown => "cursor_move_page_down".data
  | .cursorMoveDown n => "cursor_move_down".data ++ ' ' :: natToChars n
  | .cursorMoveUp n => "cursor_move_up".data ++ ' ' :: natToChars n
  | .cutFiles => "cut_files".data
  | .deleteFiles => "delete_files".data
  | .forceQuit => "force_quit".data
  | .newDirectory p => "mkdir".data ++ ' ' :: p
  | .newTab => "new_tab".data
  | .openFile => "open_file".data
  | .openFileWith => "open_file_with".data
  | .pasteFiles o =>
    "paste_files".data ++ (if o.overwrite then " --overwrite".data else [])
      ++ (if o.skip_exist then " --skip_exist".data else [])
  | .quit => "quit".data
  | .reloadDirList => "reload_dir_list".data
  | .renameFile p => "rename".data ++ ' ' :: p
  | .renameFileAppend => "rename_append".data
  | .renameFilePrepend => "rename_prepend".data
  | .search p => "search".data ++ ' ' :: p
  | .searchNext => "search_next".data
  | .searchPrev => "search_prev".data
  | .selectFiles toggle all =>
    "select_files".data ++ (if toggle then " --toggle".data else [])
      ++ (if all then " --all".data else [])
  | .setMode => "set_mode".data
  | .shellCommand c => "shell".data ++ ' ' :: c
  | .sortCmd t => "sort".data ++ ' ' :: t.name
  | .sortReverse => "sort reverse".data
  | .tabSwitch i => "tab_switch".data ++ ' ' :: intToChars i
  | .toggleHiddenFiles => "toggle_hidden".data

/-- The commands whose canonical rendering is a *valid* canonical command
string: string arguments are non-empty where the grammar demands it, carry
no leading whitespace (which the parser would strip), avoid the reserved
`..` path of `cd`, and numbers fit the machine-integer ranges of the Rust
types.  These are exactly the commands `parse_command` itself can build. -/
def wfCanonical : Command → Bool
  | .changeDirectory p => !p.isEmpty && p ≠ "..".data && trimStart p == p
  | .commandLine p s => s.isEmpty && trimStart p == p
  | .cursorMoveDown n => n ≤ usizeMax
  | .cursorMoveUp n => n ≤ usizeMax
  | .newDirectory p => !p.isEmpty && trimStart p == p
  | .renameFile p => !p.isEmpty && trimStart p == p
  | .search p => !p.isEmpty && trimStart p == p
  | .shellCommand c => trimStart c == c
  | .tabSwitch i => -(2 ^ 31 : Int) ≤ i && i ≤ (i32Max : Int)
  | _ => true

/-! ## Directory lists, tabs and context

`src/context.rs` is among the sources; the tab and directory-list structures
it stores (`src/tab.rs`, `src/fs`) are not, and are modelled from the spec.
-/

/-- A directory entry as the selection/cursor commands see it: a name, the
`selected` flag and the `marked` flag (spec §3 "Entry"; the remaining
metadata is never consulted by the embedded commands). -/
structure JoshutoDirEntry where
  name : List Char
  selected : Bool
  marked : Bool
  deriving DecidableEq, Repr

/-- Modelled from the spec: the directory-list structure behind
`curr_list_mut` (its file is not among the sources).  §3 "Column": an
ordered sequence of entries, a cursor index into it, a scroll/start offset,
the last-observed modification timestamp and a refresh flag. -/
structure JoshutoDirList where
  contents : List JoshutoDirEntry
  index : Nat
  start_index : Nat
  modified : Nat
  need_refresh : Bool
  deriving DecidableEq, Repr

/-- Modelled from the spec: `JoshutoTab` (`src/tab.rs` is not among the
sources).  §3 "Tab": a parent column, a current column and an optional
preview column.  `curr_list` is what `curr_list_mut` returns. -/
structure JoshutoTab where
  parent_list : Option JoshutoDirList
  curr_list : Option JoshutoDirList
  preview_list : Option JoshutoDirList
  deriving DecidableEq, Repr

/-- Embedding of `JoshutoContext` (src/context.rs): the exit flag, the
current tab index, the tabs, the worker-busy flag, the last worker message
and the message queue.  The worker-thread queue, the input-event source and
the configuration are I/O handles with no observable state for the embedded
commands and are not carried. -/
structure JoshutoContext where
  exit : Bool
  curr_tab_index : Nat
  tabs : List JoshutoTab
  worker_busy : Bool
  worker_msg : Option (List Char)
  message_queue : List (List Char)
  deriving DecidableEq, Repr

/-- Replaces the current tab's current list (the functional image of
mutating through `curr_tab.curr_list_mut()`). -/
def setCurrList (ctx : JoshutoContext) (tab : JoshutoTab) (l : JoshutoDirList) :
    JoshutoContext :=
  { ctx with tabs := ctx.tabs.set ctx.curr_tab_index { tab with curr_list := some l } }

/-- Modelled from the spec: `CursorMoveDown::execute`
(`src/commands/cursor_move.rs` is not among the sources).  §4.2: cursor
movement "clamps at column boundaries; moving past the end is a no-op, not
an error".  `none` models the panic of indexing `tabs[curr_tab_index]` out
of range; otherwise the command always succeeds. -/
def cursorMoveDown (n : Nat) (ctx : JoshutoContext) : Option JoshutoContext :=
  match ctx.tabs[ctx.curr_tab_index]? with
  | none => none
  | some tab =>
    match tab.curr_list with
    | none => some ctx
    | some l =>
      if l.contents = [] then some ctx
      else some (setCurrList ctx tab
        { l with index := min (l.index + n) (l.contents.length - 1) })

/-- Embedding of `SelectFiles::execute` (src/commands/selection.rs lines
36-74), with the four `toggle`/`all` branches written out exactly as in the
source.  `none` models the panic of `tabs[curr_tab_index]` out of range;
the Rust function otherwise always returns `Ok(())`. -/
def selectFilesExecute (toggle all : Bool) (ctx : JoshutoContext) :
    Option JoshutoContext :=
  match ctx.tabs[ctx.curr_tab_index]? with
  | none => none
  | some curr_tab =>
    if toggle then
      if !all then
        match curr_tab.curr_list with
        | none => some ctx
        | some l =>
          match l.contents[l.index]? with
          | none => some ctx
          | some s =>
            cursorMoveDown 1 (setCurrList ctx curr_tab
              { l with contents := l.contents.set l.index { s with selected := !s.selected } })
      else
        match curr_tab.curr_list with
        | none => some ctx
        | some l =>
          some (setCurrList ctx curr_tab
            { l with contents := l.contents.map (fun e => { e with selected := !e.selected }) })
    else if !all then
      match curr_tab.curr_list with
      | none => some ctx
      | some l =>
        match l.contents[l.index]? with
        | none => some ctx
        | some s =>
          cursorMoveDown 1 (setCurrList ctx curr_tab
            { l with contents := l.contents.set l.index { s with selected := !s.selected } })
    else
      match curr_tab.curr_list with
      | none => some ctx
      | some l =>
        some (setCurrList ctx curr_tab
          { l with contents := l.contents.map (fun e => { e with selected := true }) })

/-- `n`-fold repetition of `select_files --toggle` (used to state the
"mark a run of files" property). -/
def selectToggleN : Nat → JoshutoContext → Option JoshutoContext
  | 0, ctx => some ctx
  | n + 1, ctx => (selectFilesExecute true false ctx).bind (selectToggleN n)

/-- Modelled from the spec: `Quit::quit` (`src/commands/quit.rs` is not
among the sources).  §6: "`quit` exits cleanly only if no Worker Job is
`Running`"; on success it sets the exit flag, on failure it reports an
OS-style error and leaves the context unchanged. -/
def quit (ctx : JoshutoContext) : Except JoshutoError Unit × JoshutoContext :=
  if ctx.worker_busy then
    (.error ⟨.IOOther, "operations running in background".data⟩, ctx)
  else (.ok (), { ctx with exit := true })

/-- Modelled from the spec: `TabSwitch::tab_switch` (`src/commands/tab_switch.rs`
is not among the sources): switches the current tab to the given index
(§4.2 "switches to the resulting tab"; the directory re-listing it also
performs touches no field the embedded commands observe). -/
def tab_switch (i : Nat) (ctx : JoshutoContext) :
    Except JoshutoError Unit × JoshutoContext :=
  (.ok (), { ctx with curr_tab_index := i })

/-- Embedding of `CloseTab::close_tab` (src/commands/tab_operations.rs lines
64-75): with at most one tab it delegates to `quit`; otherwise it removes
the current tab, decrements the index if nonzero, and switches to the tab
at the resulting index.  `none` models the panic of `Vec::remove` on an
out-of-range index. -/
def close_tab (ctx : JoshutoContext) :
    Option (Except JoshutoError Unit × JoshutoContext) :=
  if ctx.tabs.length ≤ 1 then some (quit ctx)
  else if ctx.curr_tab_index < ctx.tabs.length then
    let ctx1 := { ctx with tabs := ctx.tabs.eraseIdx ctx.curr_tab_index }
    let ctx2 :=
      if ctx1.curr_tab_index > 0 then
        { ctx1 with curr_tab_index := ctx1.curr_tab_index - 1 }
      else ctx1
    some (tab_switch ctx2.curr_tab_index ctx2)
  else none

/-! ## The staleness-era column (`src/joshuto/structs.rs`) -/

/-- Insertion of an entry into a sorted list, respecting the comparator. -/
def insertSorted (le : JoshutoDirEntry → JoshutoDirEntry → Bool)
    (e : JoshutoDirEntry) : List JoshutoDirEntry → List JoshutoDirEntry
  | [] => [e]
  | x :: xs => if le e x then e :: x :: xs else x :: insertSorted le e xs

/-- Model of `Vec::sort_by` with comparator `le` (insertion sort). -/
def sortByCmp (le : JoshutoDirEntry → JoshutoDirEntry → Bool) :
    List JoshutoDirEntry → List JoshutoDirEntry
  | [] => []
  | e :: es => insertSorted le e (sortByCmp le es)

/-- Embedding of `JoshutoColumn` (src/joshuto/structs.rs lines 17-25): the
cursor index, the scroll start index, the refresh flag, the last-observed
modification timestamp, the (optional) entry list and the selection. -/
structure JoshutoColumn where
  index : Nat
  start_index : Nat
  need_update : Bool
  modified : Nat
  contents : Option (List JoshutoDirEntry)
  selection : List (List Char)
  deriving DecidableEq, Repr

/-- Embedding of `JoshutoColumn::update` (src/joshuto/structs.rs lines
80-102).  The two filesystem reads are passed in as arguments: `listing` is
the result of `read_dir_list` and `meta` the result of
`fs::metadata(path).modified()`.  On a successful re-list the entries are
sorted and installed and the cursor is pulled back to the last entry when
it is at or past the end of a non-empty new list; on a failed re-list the
previous contents stay.  The refresh flag is cleared first in either case,
and the stored timestamp is refreshed when the metadata read succeeds. -/
def JoshutoColumn.update (col : JoshutoColumn)
    (listing : Except (List Char) (List JoshutoDirEntry))
    (le : JoshutoDirEntry → JoshutoDirEntry → Bool)
    (meta : Except (List Char) Nat) : JoshutoColumn :=
  let col0 := { col with need_update := false }
  let col1 :=
    match listing with
    | .ok dir_contents =>
      let dc := sortByCmp le dir_contents
      let colA := { col0 with contents := some dc }
      if colA.index ≥ dc.length then
        if 0 < dc.length then { colA with index := dc.length - 1 } else colA
      else colA
    | .error _ => col0
  match meta with
  | .ok s => { col1 with modified := s }
  | .error _ => col1

/-- Abbreviation for the entry toggling `s.set_selected(!s.is_selected())`
performs (src/commands/selection.rs). -/
def toggleSelected (e : JoshutoDirEntry) : JoshutoDirEntry :=
  { e with selected := !e.selected }

/-! ## Parser theorems -/

/-- C8: for every command requiring a mandatory argument (`mkdir`, `rename`,
`search`), `parse_command` applied to the bare command name (empty argument)
fails with the `IOInvalidData` error kind, whatever the home directory is;
the parser is a total function, so it never panics. -/
theorem parse_mandatory_arg_empty_fails (home : Option (List Char)) :
    parseCommand home "mkdir".data =
      .error ⟨.IOInvalidData, "mkdir: missing additional parameter".data⟩ ∧
    parseCommand home "rename".data =
      .error ⟨.IOInvalidData, "rename_file: Expected 1, got 0".data⟩ ∧
    parseCommand home "search".data =
      .error ⟨.IOInvalidData, "search: Expected 1, got 0".data⟩ :=
  ⟨rfl, rfl, rfl⟩

/-- C6 (counterexample): `parse_command "tab_switch abc"` fails, but with the
`IOInvalidData` kind — not the `ParseError` kind the claim names (the
message does carry the original parser diagnostic). -/
theorem tab_switch_parse_error_kind_counterexample :
    parseCommand none "tab_switch abc".data =
      .error ⟨.IOInvalidData, "tab_switch: invalid digit found in string".data⟩ ∧
    JoshutoErrorKind.IOInvalidData ≠ JoshutoErrorKind.ParseError :=
  ⟨rfl, by decide⟩

/-- C6 (amended): parsing `tab_switch` with an empty argument fails with
`IOInvalidData`; with a non-numeric argument it fails with `IOInvalidData`
carrying the original parser diagnostic ("invalid digit found in string");
and `tab_switch -1` parses successfully. -/
theorem tab_switch_argument_errors (home : Option (List Char)) :
    parseCommand home "tab_switch".data =
      .error ⟨.IOInvalidData, "tab_switch: No option provided".data⟩ ∧
    parseCommand home "tab_switch abc".data =
      .error ⟨.IOInvalidData, "tab_switch: invalid digit found in string".data⟩ ∧
    parseCommand home "tab_switch -1".data = .ok (.tabSwitch (-1)) :=
  ⟨rfl, rfl, rfl⟩

lemma pasteOptionsLoop_ok (toks : List (List Char)) (o : FileOptions)
    (h : ∀ t ∈ toks, t = "--overwrite".data ∨ t = "--skip_exist".data) :
    ∃ o', pasteOptionsLoop toks o = .ok o' := by
  induction toks generalizing o with
  | nil => exact ⟨o, rfl⟩
  | cons t ts ih =>
    rcases h t (List.mem_cons_self ..) with ht | ht <;>
      · subst ht
        simpa [pasteOptionsLoop] using
          ih _ (fun u hu => h u (List.mem_cons_of_mem _ hu))

lemma pasteOptionsLoop_bad (toks : List (List Char)) (o : FileOptions)
    (h : ∃ t ∈ toks, t ≠ "--overwrite".data ∧ t ≠ "--skip_exist".data) :
    ∃ t, (t ∈ toks ∧ t ≠ "--overwrite".data ∧ t ≠ "--skip_exist".data) ∧
      pasteOptionsLoop toks o =
        .error ⟨.IOInvalidData, "paste_files: unknown option ".data ++ t⟩ := by
  induction toks generalizing o with
  | nil => simp at h
  | cons t ts ih =>
    by_cases h1 : t = "--overwrite".data
    · subst h1
      obtain ⟨u, hu, hbad⟩ := h
      rcases List.mem_cons.1 hu with rfl | hu
      · exact absurd rfl hbad.1
      · obtain ⟨v, hv, hloop⟩ := ih _ ⟨u, hu, hbad⟩
        exact ⟨v, ⟨List.mem_cons_of_mem _ hv.1, hv.2⟩, by
          simpa [pasteOptionsLoop] using hloop⟩
    · by_cases h2 : t = "--skip_exist".data
      · subst h2
        obtain ⟨u, hu, hbad⟩ := h
        rcases List.mem_cons.1 hu with rfl | hu
        · exact absurd rfl hbad.2
        · obtain ⟨v, hv, hloop⟩ := ih _ ⟨u, hu, hbad⟩
          exact ⟨v, ⟨List.mem_cons_of_mem _ hv.1, hv.2⟩, by
            simpa [pasteOptionsLoop] using hloop⟩
      · exact ⟨t, ⟨List.mem_cons_self .., h1, h2⟩, by
          simp [pasteOptionsLoop, h1, h2]⟩

lemma selectFlagsLoop_ok (toks : List (List Char)) (f : Bool × Bool)
    (h : ∀ t ∈ toks, t = "--toggle".data ∨ t = "--all".data) :
    ∃ f', selectFlagsLoop toks f = .ok f' := by
  induction toks generalizing f with
  | nil => exact ⟨f, rfl⟩
  | cons t ts ih =>
    rcases h t (List.mem_cons_self ..) with ht | ht <;>
      · subst ht
        simpa [selectFlagsLoop] using
          ih _ (fun u hu => h u (List.mem_cons_of_mem _ hu))

lemma selectFlagsLoop_bad (toks : List (List Char)) (f : Bool × Bool)
    (h : ∃ t ∈ toks, t ≠ "--toggle".data ∧ t ≠ "--all".data) :
    ∃ t, (t ∈ toks ∧ t ≠ "--toggle".data ∧ t ≠ "--all".data) ∧
      selectFlagsLoop toks f =
        .error ⟨.IOInvalidData, "select_files: unknown option ".data ++ t⟩ := by
  induction toks generalizing f with
  | nil => simp at h
  | cons t ts ih =>
    by_cases h1 : t = "--toggle".data
    · subst h1
      obtain ⟨u, hu, hbad⟩ := h
      rcases List.mem_cons.1 hu with rfl | hu
      · exact absurd rfl hbad.1
      · obtain ⟨v, hv, hloop⟩ := ih _ ⟨u, hu, hbad⟩
        exact ⟨v, ⟨List.mem_cons_of_mem _ hv.1, hv.2⟩, by
          simpa [selectFlagsLoop] using hloop⟩
    · by_cases h2 : t = "--all".data
      · subst h2
        obtain ⟨u, hu, hbad⟩ := h
        rcases List.mem_cons.1 hu with rfl | hu
        · exact absurd rfl hbad.2
        · obtain ⟨v, hv, hloop⟩ := ih _ ⟨u, hu, hbad⟩
          exact ⟨v, ⟨List.mem_cons_of_mem _ hv.1, hv.2⟩, by
            simpa [selectFlagsLoop] using hloop⟩
      · exact ⟨t, ⟨List.mem_cons_self .., h1, h2⟩, by
          simp [selectFlagsLoop, h1, h2]⟩

/-- C7: for the flag-style commands, the whitespace-split tokens of the
argument must each belong to the command's fixed set
(`--overwrite`/`--skip_exist` for `paste_files`, `--toggle`/`--all` for
`select_files`): token lists inside the set always succeed, any offending
token makes the loop fail with `IOInvalidData` naming an offending token,
and in particular `paste_files --overwrite --skip_exist` parses with both
options set. -/
theorem flag_command_token_validation :
    (∀ (toks : List (List Char)) (o : FileOptions),
      (∀ t ∈ toks, t = "--overwrite".data ∨ t = "--skip_exist".data) →
        ∃ o', pasteOptionsLoop toks o = .ok o') ∧
    (∀ (toks : List (List Char)) (o : FileOptions),
      (∃ t ∈ toks, t ≠ "--overwrite".data ∧ t ≠ "--skip_exist".data) →
        ∃ t, (t ∈ toks ∧ t ≠ "--overwrite".data ∧ t ≠ "--skip_exist".data) ∧
          pasteOptionsLoop toks o =
            .error ⟨.IOInvalidData, "paste_files: unknown option ".data ++ t⟩) ∧
    (∀ (toks : List (List Char)) (f : Bool × Bool),
      (∀ t ∈ toks, t = "--toggle".data ∨ t = "--all".data) →
        ∃ f', selectFlagsLoop toks f = .ok f') ∧
    (∀ (toks : List (List Char)) (f : Bool × Bool),
      (∃ t ∈ toks, t ≠ "--toggle".data ∧ t ≠ "--all".data) →
        ∃ t, (t ∈ toks ∧ t ≠ "--toggle".data ∧ t ≠ "--all".data) ∧
          selectFlagsLoop toks f =
            .error ⟨.IOInvalidData, "select_files: unknown option ".data ++ t⟩) ∧
    (∀ home, parseCommand home "paste_files --overwrite --skip_exist".data =
      .ok (.pasteFiles ⟨true, true⟩)) :=
  ⟨pasteOptionsLoop_ok, pasteOptionsLoop_bad, selectFlagsLoop_ok,
    selectFlagsLoop_bad, fun _ => rfl⟩

/-- C7 witness: the generic token-validation statements instantiated at
concrete token lists. -/
theorem flag_command_token_validation_witness :
    (∃ o', pasteOptionsLoop ["--overwrite".data, "--skip_exist".data] {} = .ok o') ∧
    (∃ t, (t ∈ ["--bogus".data] ∧ t ≠ "--overwrite".data ∧ t ≠ "--skip_exist".data) ∧
      pasteOptionsLoop ["--bogus".data] {} =
        .error ⟨.IOInvalidData, "paste_files: unknown option ".data ++ t⟩) ∧
    (∃ f', selectFlagsLoop ["--toggle".data] (false, false) = .ok f') ∧
    (∃ t, (t ∈ ["--bogus".data] ∧ t ≠ "--toggle".data ∧ t ≠ "--all".data) ∧
      selectFlagsLoop ["--bogus".data] (false, false) =
        .error ⟨.IOInvalidData, "select_files: unknown option ".data ++ t⟩) :=
  ⟨flag_command_token_validation.1 _ {} (by decide),
    flag_command_token_validation.2.1 _ {} ⟨"--bogus".data, by decide, by decide⟩,
    flag_command_token_validation.2.2.1 _ (false, false) (by decide),
    flag_command_token_validation.2.2.2.1 _ (false, false)
      ⟨"--bogus".data, by decide, by decide⟩⟩

/-! ### Round-trip support lemmas -/

lemma breakAtSpace_append (name p : List Char) (h : ∀ c ∈ name, c ≠ ' ') :
    breakAtSpace (name ++ ' ' :: p) = (name, p) := by
  induction name with
  | nil => simp [breakAtSpace]
  | cons c cs ih =>
    have hc : c ≠ ' ' := h c (List.mem_cons_self ..)
    simp [breakAtSpace, hc, ih (fun u hu => h u (List.mem_cons_of_mem _ hu))]

lemma digitChar_toNat {d : Nat} (h : d < 10) : (Nat.digitChar d).toNat = 48 + d := by
  interval_cases d <;> rfl

lemma digitChar_isDigit {d : Nat} (h : d < 10) : (Nat.digitChar d).isDigit = true := by
  interval_cases d <;> rfl

lemma natToChars_ne_nil (n : Nat) : natToChars n ≠ [] := by
  unfold natToChars
  split
  · simp
  · simp [Nat.digits_ne_nil_iff_ne_zero, *]

lemma natToChars_all_digit (n : Nat) : ∀ c ∈ natToChars n, c.isDigit = true := by
  unfold natToChars
  split
  · intro c hc
    simp at hc
    subst hc
    rfl
  · intro c hc
    rw [List.mem_reverse, List.mem_map] at hc
    obtain ⟨d, hd, rfl⟩ := hc
    exact digitChar_isDigit (Nat.digits_lt_base (by norm_num) hd)

lemma foldr_digitChar_eq_ofDigits (l : List Nat) (h : ∀ d ∈ l, d < 10) :
    l.foldr (fun d a => 10 * a + ((Nat.digitChar d).toNat - 48)) 0 =
      Nat.ofDigits 10 l := by
  induction l with
  | nil => simp [Nat.ofDigits]
  | cons d ds ih =>
    rw [List.foldr_cons, ih (fun u hu => h u (List.mem_cons_of_mem _ hu)),
      Nat.ofDigits_cons, digitChar_toNat (h d (List.mem_cons_self ..))]
    omega

lemma charsToNat_natToChars (n : Nat) : charsToNat (natToChars n) = n := by
  unfold natToChars charsToNat
  split
  · subst n
    decide
  · rw [List.foldl_reverse, List.foldr_map,
      foldr_digitChar_eq_ofDigits _ (fun d hd => Nat.digits_lt_base (by norm_num) hd)]
    · exact_mod_cast Nat.ofDigits_digits 10 n

lemma not_whitespace_of_isDigit {c : Char} (h : c.isDigit = true) :
    c.isWhitespace = false := by
  by_contra hw
  rw [Bool.not_eq_false] at hw
  simp only [Char.isWhitespace, Bool.or_eq_true, decide_eq_true_eq] at hw
  rcases hw with ((rfl | rfl) | rfl) | rfl <;> exact absurd h (by decide)

lemma ne_plus_of_isDigit {c : Char} (h : c.isDigit = true) : c ≠ '+' := by
  rintro rfl
  exact absurd h (by decide)

lemma ne_minus_of_isDigit {c : Char} (h : c.isDigit = true) : c ≠ '-' := by
  rintro rfl
  exact absurd h (by decide)

lemma trimStart_of_all_digit (l : List Char) (h : ∀ c ∈ l, c.isDigit = true) :
    trimStart l = l := by
  cases l with
  | nil => rfl
  | cons c cs =>
    unfold trimStart
    rw [not_whitespace_of_isDigit (h c (List.mem_cons_self ..))]
    simp

lemma parseNatDigits_natToChars (n : Nat) (h : n ≤ usizeMax) :
    parseNatDigits (natToChars n) = .ok n := by
  unfold parseNatDigits
  rw [if_neg (natToChars_ne_nil n),
    if_pos (List.all_eq_true.2 (natToChars_all_digit n)),
    charsToNat_natToChars, if_pos h]

lemma parseUsize_natToChars (n : Nat) (h : n ≤ usizeMax) :
    parseUsize (natToChars n) = .ok n := by
  obtain ⟨c, cs, hcc⟩ : ∃ c cs, natToChars n = c :: cs := by
    cases h' : natToChars n with
    | nil => exact absurd h' (natToChars_ne_nil n)
    | cons c cs => exact ⟨c, cs, rfl⟩
  have hcd : c.isDigit = true :=
    natToChars_all_digit n c (hcc ▸ List.mem_cons_self ..)
  rw [hcc]
  simp only [parseUsize]
  rw [if_neg (ne_plus_of_isDigit hcd), ← hcc]
  exact parseNatDigits_natToChars n h

lemma parseI32_intToChars (i : Int) (h1 : -(2 ^ 31) ≤ i) (h2 : i ≤ (i32Max : Int)) :
    parseI32 (intToChars i) = .ok i := by
  unfold intToChars
  split
  · next hneg =>
    simp only [parseI32]
    rw [if_neg (by decide), if_pos trivial]
    unfold parseI32Digits
    rw [if_neg (natToChars_ne_nil _),
      if_pos (List.all_eq_true.2 (natToChars_all_digit _)),
      charsToNat_natToChars, if_neg (by decide)]
    have hb : i.natAbs ≤ 2 ^ 31 := by omega
    rw [if_pos hb]
    have heq : -((i.natAbs : Int)) = i := by omega
    rw [heq]
  · next hpos =>
    obtain ⟨c, cs, hcc⟩ : ∃ c cs, natToChars i.toNat = c :: cs := by
      cases h' : natToChars i.toNat with
      | nil => exact absurd h' (natToChars_ne_nil _)
      | cons c cs => exact ⟨c, cs, rfl⟩
    have hcd : c.isDigit = true :=
      natToChars_all_digit _ c (hcc ▸ List.mem_cons_self ..)
    rw [hcc]
    simp only [parseI32]
    rw [if_neg (ne_plus_of_isDigit hcd), if_neg (ne_minus_of_isDigit hcd), ← hcc]
    unfold parseI32Digits
    rw [if_neg (natToChars_ne_nil _),
      if_pos (List.all_eq_true.2 (natToChars_all_digit _)),
      charsToNat_natToChars, if_pos rfl]
    have hb : i.toNat ≤ i32Max := by unfold i32Max at *; omega
    rw [if_pos hb]
    have heq : ((i.toNat : Int)) = i := by omega
    rw [heq]


lemma intToChars_ne_nil (i : Int) : intToChars i ≠ [] := by
  unfold intToChars
  split
  · simp
  · exact natToChars_ne_nil _

lemma trimStart_intToChars (i : Int) : trimStart (intToChars i) = intToChars i := by
  unfold intToChars
  split
  · unfold trimStart
    rw [show ('-').isWhitespace = false from rfl]
    simp
  · exact trimStart_of_all_digit _ (natToChars_all_digit _)

/-- C1: for every command whose canonical rendering is a valid canonical
command string (non-empty mandatory arguments, no leading whitespace in a
string argument, numbers within the machine ranges), `parse_command`
applied to that rendering succeeds and returns the very same command — so
re-rendering it reproduces the input string exactly. -/
theorem parse_display_roundtrip (home : Option (List Char)) (c : Command)
    (h : wfCanonical c = true) : parseCommand home (display c) = .ok c := by
  cases c with
  | bulkRename => rfl
  | parentDirectory => rfl
  | closeTab => rfl
  | copyFiles => rfl
  | cursorMoveHome => rfl
  | cursorMoveEnd => rfl
  | cursorMovePageUp => rfl
  | cursorMovePageDown => rfl
  | cutFiles => rfl
  | deleteFiles => rfl
  | forceQuit => rfl
  | newTab => rfl
  | openFile => rfl
  | openFileWith => rfl
  | quit => rfl
  | reloadDirList => rfl
  | renameFileAppend => rfl
  | renameFilePrepend => rfl
  | searchNext => rfl
  | searchPrev => rfl
  | setMode => rfl
  | sortReverse => rfl
  | toggleHiddenFiles => rfl
  | pasteFiles o =>
    rcases o with ⟨ov, sk⟩
    cases ov <;> cases sk <;> rfl
  | selectFiles t a => cases t <;> cases a <;> rfl
  | sortCmd t => cases t <;> rfl
  | changeDirectory p =>
    simp only [wfCanonical, Bool.and_eq_true, Bool.not_eq_true',
      List.isEmpty_eq_false, decide_eq_true_eq, beq_iff_eq] at h
    obtain ⟨⟨h1, h2⟩, h3⟩ := h
    simp only [display]
    unfold parseCommand
    rw [breakAtSpace_append _ _ (by decide), h3]
    simp +decide [h1, h2]
  | commandLine p s =>
    simp only [wfCanonical, Bool.and_eq_true, List.isEmpty_iff, beq_iff_eq] at h
    obtain ⟨h1, h3⟩ := h
    subst h1
    simp only [display, List.append_nil]
    unfold parseCommand
    rw [breakAtSpace_append _ _ (by decide), h3]
    simp +decide
  | cursorMoveDown n =>
    simp only [wfCanonical, decide_eq_true_eq] at h
    simp only [display]
    unfold parseCommand
    rw [breakAtSpace_append _ _ (by decide),
      trimStart_of_all_digit _ (natToChars_all_digit n)]
    simp +decide [natToChars_ne_nil n, parseUsize_natToChars n h]
  | cursorMoveUp n =>
    simp only [wfCanonical, decide_eq_true_eq] at h
    simp only [display]
    unfold parseCommand
    rw [breakAtSpace_append _ _ (by decide),
      trimStart_of_all_digit _ (natToChars_all_digit n)]
    simp +decide [natToChars_ne_nil n, parseUsize_natToChars n h]
  | newDirectory p =>
    simp only [wfCanonical, Bool.and_eq_true, Bool.not_eq_true',
      List.isEmpty_eq_false, beq_iff_eq] at h
    obtain ⟨h1, h3⟩ := h
    simp only [display]
    unfold parseCommand
    rw [breakAtSpace_append _ _ (by decide), h3]
    simp +decide [h1]
  | renameFile p =>
    simp only [wfCanonical, Bool.and_eq_true, Bool.not_eq_true',
      List.isEmpty_eq_false, beq_iff_eq] at h
    obtain ⟨h1, h3⟩ := h
    simp only [display]
    unfold parseCommand
    rw [breakAtSpace_append _ _ (by decide), h3]
    simp +decide [h1]
  | search p =>
    simp only [wfCanonical, Bool.and_eq_true, Bool.not_eq_true',
      List.isEmpty_eq_false, beq_iff_eq] at h
    obtain ⟨h1, h3⟩ := h
    simp only [display]
    unfold parseCommand
    rw [breakAtSpace_append _ _ (by decide), h3]
    simp +decide [h1]
  | shellCommand p =>
    simp only [wfCanonical, beq_iff_eq] at h
    simp only [display]
    unfold parseCommand
    rw [breakAtSpace_append _ _ (by decide), h]
    simp +decide
  | tabSwitch i =>
    simp only [wfCanonical, Bool.and_eq_true, decide_eq_true_eq] at h
    obtain ⟨h1, h2⟩ := h
    simp only [display]
    unfold parseCommand
    rw [breakAtSpace_append _ _ (by decide), trimStart_intToChars i]
    simp +decide [intToChars_ne_nil i, parseI32_intToChars i h1 h2]

/-- C1 witness: the round trip at the concrete command `mkdir foo`. -/
theorem parse_display_roundtrip_witness :
    wfCanonical (.newDirectory "foo".data) = true ∧
    parseCommand none (display (.newDirectory "foo".data)) =
      .ok (.newDirectory "foo".data) :=
  ⟨by decide, parse_display_roundtrip none _ (by decide)⟩


/-- C10: with `all = false`, `SelectFiles::execute` behaves identically for
both values of `toggle` (the two branches are the same code); with
`all = true` the toggle flag selects between inverting every entry and
setting every entry selected. -/
theorem select_toggle_single_irrelevant :
    (∀ ctx, selectFilesExecute true false ctx = selectFilesExecute false false ctx) ∧
    (∀ ctx tab l, ctx.tabs[ctx.curr_tab_index]? = some tab → tab.curr_list = some l →
      selectFilesExecute true true ctx = some (setCurrList ctx tab
        { l with contents := l.contents.map (fun e => { e with selected := !e.selected }) }) ∧
      selectFilesExecute false true ctx = some (setCurrList ctx tab
        { l with contents := l.contents.map (fun e => { e with selected := true }) })) := by
  constructor
  · intro ctx
    unfold selectFilesExecute
    cases ctx.tabs[ctx.curr_tab_index]? <;> rfl
  · intro ctx tab l h1 h2
    constructor <;> (unfold selectFilesExecute; rw [h1]; simp [h2])

/-- C3: `close_tab` with exactly one tab delegates to `quit` — no tab is
removed and the exit flag is set exactly as `quit` sets it (true when no
worker is busy, untouched otherwise); with more than one tab it removes the
tab at `curr_tab_index`, decrements the index only if it was nonzero, and
switches to the tab now at that index. -/
theorem close_tab_behaviour :
    (∀ ctx : JoshutoContext, ctx.tabs.length = 1 →
      close_tab ctx = some (quit ctx) ∧ (quit ctx).2.tabs = ctx.tabs ∧
      (ctx.worker_busy = false → (quit ctx).2 = { ctx with exit := true }) ∧
      (ctx.worker_busy = true → (quit ctx).2 = ctx)) ∧
    (∀ ctx : JoshutoContext, 1 < ctx.tabs.length →
      ctx.curr_tab_index < ctx.tabs.length →
      close_tab ctx = some (.ok (), { ctx with
        tabs := ctx.tabs.eraseIdx ctx.curr_tab_index,
        curr_tab_index :=
          if ctx.curr_tab_index = 0 then 0 else ctx.curr_tab_index - 1 })) := by
  constructor
  · intro ctx h
    refine ⟨?_, ?_, ?_, ?_⟩
    · unfold close_tab
      rw [if_pos (by omega)]
    · unfold quit
      split <;> rfl
    · intro hb
      simp [quit, hb]
    · intro hb
      simp [quit, hb]
  · intro ctx h1 h2
    unfold close_tab
    rw [if_neg (by omega), if_pos h2]
    unfold tab_switch
    by_cases h0 : ctx.curr_tab_index = 0
    · simp [h0]
    · simp [h0, Nat.pos_of_ne_zero h0]


/-- C9: `JoshutoColumn::update` clears the `need_update` flag
unconditionally — after any call it is false whether or not the re-listing
or the metadata read succeeded. -/
theorem update_clears_need_update (col : JoshutoColumn)
    (listing : Except (List Char) (List JoshutoDirEntry))
    (le : JoshutoDirEntry → JoshutoDirEntry → Bool)
    (meta : Except (List Char) Nat) :
    (col.update listing le meta).need_update = false := by
  unfold JoshutoColumn.update
  cases listing <;> cases meta <;> dsimp only <;> split_ifs <;> rfl

/-- C5: when the re-listing fails, `JoshutoColumn::update` leaves the
previous contents in place (not cleared) and the cursor index unchanged,
whatever the metadata read does. -/
theorem update_error_preserves_contents (col : JoshutoColumn)
    (msg : List Char) (le : JoshutoDirEntry → JoshutoDirEntry → Bool)
    (meta : Except (List Char) Nat) :
    (col.update (.error msg) le meta).contents = col.contents ∧
    (col.update (.error msg) le meta).index = col.index := by
  cases meta <;> exact ⟨rfl, rfl⟩

/-- C4 (counterexample): when the re-listed sequence shrinks to zero length
the cursor is *not* clamped: a column with cursor 3 re-listed to an empty
sequence keeps cursor 3 (in particular the cursor is not reset to 0 and is
past the end of the new sequence). -/
theorem update_shrink_to_empty_counterexample :
    (JoshutoColumn.update ⟨3, 0, true, 0, some [⟨"a".data, false, false⟩], []⟩
        (.ok []) (fun _ _ => true) (.ok 7)).contents = some [] ∧
    (JoshutoColumn.update ⟨3, 0, true, 0, some [⟨"a".data, false, false⟩], []⟩
        (.ok []) (fun _ _ => true) (.ok 7)).index = 3 ∧
    (3 : Nat) ≠ 0 :=
  ⟨rfl, rfl, by decide⟩

lemma update_ok_contents (col : JoshutoColumn)
    (l : List JoshutoDirEntry) (le : JoshutoDirEntry → JoshutoDirEntry → Bool)
    (meta : Except (List Char) Nat) :
    (col.update (.ok l) le meta).contents = some (sortByCmp le l) := by
  unfold JoshutoColumn.update
  cases meta <;> dsimp only <;> split_ifs <;> rfl

lemma update_ok_index (col : JoshutoColumn)
    (l : List JoshutoDirEntry) (le : JoshutoDirEntry → JoshutoDirEntry → Bool)
    (meta : Except (List Char) Nat) :
    (col.update (.ok l) le meta).index =
      if (sortByCmp le l).length ≤ col.index then
        if 0 < (sortByCmp le l).length then (sortByCmp le l).length - 1 else col.index
      else col.index := by
  unfold JoshutoColumn.update
  cases meta <;> dsimp only <;> split_ifs <;> rfl

/-- C4 (amended): after a successful re-list, the new sorted sequence is
installed and the cursor is clamped into range whenever the new sequence is
non-empty; when the new sequence is empty the cursor index is left
unchanged (possibly out of range), not clamped to zero. -/
theorem update_clamps_cursor (col : JoshutoColumn)
    (l : List JoshutoDirEntry) (le : JoshutoDirEntry → JoshutoDirEntry → Bool)
    (meta : Except (List Char) Nat) :
    (col.update (.ok l) le meta).contents = some (sortByCmp le l) ∧
    (sortByCmp le l ≠ [] →
      (col.update (.ok l) le meta).index < (sortByCmp le l).length) ∧
    (sortByCmp le l = [] →
      (col.update (.ok l) le meta).index = col.index) := by
  refine ⟨update_ok_contents col l le meta, fun hne => ?_, fun hnil => ?_⟩
  · have hpos := List.length_pos.2 hne
    rw [update_ok_index]
    split_ifs <;> omega
  · rw [update_ok_index, hnil]
    simp

/-- C4 witness: the amended clamping statement evaluated at a concrete
column with cursor 3 against a one-entry and an empty re-listing. -/
theorem update_clamps_cursor_witness :
    (JoshutoColumn.update ⟨3, 0, true, 0, some [], []⟩
        (.ok [⟨"a".data, false, false⟩]) (fun _ _ => true) (.ok 7)).index <
      (sortByCmp (fun _ _ => true) [⟨"a".data, false, false⟩]).length ∧
    (JoshutoColumn.update ⟨3, 0, true, 0, some [], []⟩
        (.ok []) (fun _ _ => true) (.ok 7)).index = 3 :=
  ⟨(update_clamps_cursor ⟨3, 0, true, 0, some [], []⟩
      [⟨"a".data, false, false⟩] (fun _ _ => true) (.ok 7)).2.1 (by decide),
    (update_clamps_cursor ⟨3, 0, true, 0, some [], []⟩
      [] (fun _ _ => true) (.ok 7)).2.2 rfl⟩

end Joshuto


namespace Joshuto

lemma selectFiles_toggle_step (ctx : JoshutoContext) (tab : JoshutoTab)
    (l : JoshutoDirList) (s : JoshutoDirEntry)
    (h1 : ctx.tabs[ctx.curr_tab_index]? = some tab)
    (h2 : tab.curr_list = some l)
    (h3 : l.contents[l.index]? = some s) :
    selectFilesExecute true false ctx = some (setCurrList ctx tab
      { l with contents := l.contents.set l.index { s with selected := !s.selected },
               index := min (l.index + 1) (l.contents.length - 1) }) := by
  have hidx : ctx.curr_tab_index < ctx.tabs.length := by
    by_contra hx
    rw [List.getElem?_eq_none (by omega)] at h1
    cases h1
  have hlen : l.index < l.contents.length := by
    by_contra hx
    rw [List.getElem?_eq_none (by omega)] at h3
    cases h3
  unfold selectFilesExecute
  rw [h1]
  simp only [Bool.not_false, if_true]
  simp only [h2, h3]
  unfold cursorMoveDown setCurrList
  have hset : (ctx.tabs.set ctx.curr_tab_index
      { tab with curr_list := some { l with
          contents := l.contents.set l.index { s with selected := !s.selected } } })[ctx.curr_tab_index]? =
      some { tab with curr_list := some { l with
        contents := l.contents.set l.index { s with selected := !s.selected } } } :=
    List.getElem?_set_self (by simpa using hidx)
  rw [hset]
  have hne : l.contents.set l.index { s with selected := !s.selected } ≠ [] := by
    intro hcon
    have h0 : (l.contents.set l.index { s with selected := !s.selected }).length = 0 := by
      rw [hcon]
      rfl
    rw [List.length_set] at h0
    omega
  simp only [hne, if_neg, List.set_set, List.length_set, if_false]

lemma set_getElem?_self {α : Type} {l : List α} {i : Nat} {a : α}
    (h : l[i]? = some a) : l.set i a = l := by
  have hi : i < l.length := by
    by_contra hx
    rw [List.getElem?_eq_none (by omega)] at h
    cases h
  apply List.ext_getElem?
  intro n
  by_cases hn : n = i
  · subst hn
    rw [List.getElem?_set_self hi, h]
  · rw [List.getElem?_set_ne (by omega)]

lemma marked_run_contents_length (cs : List JoshutoDirEntry) (k : Nat)
    (hk : k ≤ cs.length) :
    ((cs.take k).map toggleSelected ++ cs.drop k).length = cs.length := by
  simp only [List.length_append, List.length_map, List.length_take, List.length_drop]
  omega

lemma marked_run_contents_getElem (cs : List JoshutoDirEntry) (k : Nat)
    (hk : k < cs.length) :
    ((cs.take k).map toggleSelected ++ cs.drop k)[k]? = some cs[k] := by
  have hlen : ((cs.take k).map toggleSelected).length = k := by
    simp only [List.length_map, List.length_take]
    omega
  rw [List.getElem?_append_right (by omega), hlen, Nat.sub_self,
    List.drop_eq_getElem_cons hk, List.getElem?_cons_zero]

lemma marked_run_contents_set (cs : List JoshutoDirEntry) (k : Nat)
    (hk : k < cs.length) :
    ((cs.take k).map toggleSelected ++ cs.drop k).set k (toggleSelected cs[k]) =
      (cs.take (k + 1)).map toggleSelected ++ cs.drop (k + 1) := by
  have hlen : ((cs.take k).map toggleSelected).length = k := by
    simp only [List.length_map, List.length_take]
    omega
  rw [List.set_append_right _ _ (by omega), hlen, Nat.sub_self,
    List.drop_eq_getElem_cons hk, List.set_cons_zero, List.take_succ,
    List.getElem?_eq_getElem hk, Option.toList_some, List.map_append,
    List.map_cons, List.map_nil, List.append_assoc, List.singleton_append]

lemma selectFiles_toggle_step_tog (ctx : JoshutoContext) (tab : JoshutoTab)
    (l : JoshutoDirList) (s : JoshutoDirEntry)
    (h1 : ctx.tabs[ctx.curr_tab_index]? = some tab)
    (h2 : tab.curr_list = some l)
    (h3 : l.contents[l.index]? = some s) :
    selectFilesExecute true false ctx = some (setCurrList ctx tab
      { l with contents := l.contents.set l.index (toggleSelected s),
               index := min (l.index + 1) (l.contents.length - 1) }) :=
  selectFiles_toggle_step ctx tab l s h1 h2 h3

lemma setCurrList_tabs_getElem (ctx : JoshutoContext) (tab : JoshutoTab)
    (l : JoshutoDirList) (hidx : ctx.curr_tab_index < ctx.tabs.length) :
    (setCurrList ctx tab l).tabs[(setCurrList ctx tab l).curr_tab_index]? =
      some { tab with curr_list := some l } := by
  simp only [setCurrList]
  exact List.getElem?_set_self (by simpa using hidx)

lemma setCurrList_setCurrList (ctx : JoshutoContext) (tab : JoshutoTab)
    (l l' : JoshutoDirList) :
    setCurrList (setCurrList ctx tab l) { tab with curr_list := some l } l' =
      setCurrList ctx tab l' := by
  simp [setCurrList, List.set_set]

lemma selectToggleN_run (ctx : JoshutoContext) (tab : JoshutoTab)
    (l : JoshutoDirList) (cs : List JoshutoDirEntry)
    (hidx : ctx.curr_tab_index < ctx.tabs.length) :
    ∀ j k, k + j = cs.length →
      selectToggleN j (setCurrList ctx tab
        { l with contents := (cs.take k).map toggleSelected ++ cs.drop k,
                 index := min k (cs.length - 1) }) =
      some (setCurrList ctx tab
        { l with contents := cs.map toggleSelected, index := cs.length - 1 }) := by
  intro j
  induction j with
  | zero =>
    intro k hk
    have hkn : k = cs.length := by omega
    subst hkn
    rw [List.take_length, List.drop_length, List.append_nil,
      Nat.min_eq_right (by omega)]
    rfl
  | succ j ih =>
    intro k hk
    have hkl : k < cs.length := by omega
    have hmin : min k (cs.length - 1) = k := Nat.min_eq_left (by omega)
    simp only [selectToggleN]
    rw [selectFiles_toggle_step_tog _ _ _ cs[k]
      (setCurrList_tabs_getElem ctx tab _ hidx) rfl
      (by rw [hmin]; exact marked_run_contents_getElem cs k hkl)]
    rw [Option.some_bind, setCurrList_setCurrList, hmin,
      marked_run_contents_length cs k (Nat.le_of_lt hkl),
      marked_run_contents_set cs k hkl]
    exact ih (k + 1) (by omega)

/-- C2: executing `select_files --toggle` on a non-empty current column
toggles exactly the entry under the cursor and advances the cursor down by
one (clamped at the last entry); starting from the top of a column of
length `n` with nothing selected, executing it `n` times selects every
entry exactly once and leaves the cursor on the last entry. -/
theorem select_toggle_marks_run :
    (∀ (ctx : JoshutoContext) (tab : JoshutoTab) (l : JoshutoDirList)
        (s : JoshutoDirEntry),
      ctx.tabs[ctx.curr_tab_index]? = some tab → tab.curr_list = some l →
      l.contents[l.index]? = some s →
      selectFilesExecute true false ctx = some (setCurrList ctx tab
        { l with contents := l.contents.set l.index { s with selected := !s.selected },
                 index := min (l.index + 1) (l.contents.length - 1) })) ∧
    (∀ (ctx : JoshutoContext) (tab : JoshutoTab) (l : JoshutoDirList),
      ctx.tabs[ctx.curr_tab_index]? = some tab → tab.curr_list = some l →
      l.index = 0 → l.contents ≠ [] →
      (∀ e ∈ l.contents, e.selected = false) →
      selectToggleN l.contents.length ctx = some (setCurrList ctx tab
        { l with contents := l.contents.map (fun e => { e with selected := true }),
                 index := l.contents.length - 1 })) := by
  constructor
  · exact selectFiles_toggle_step
  · intro ctx tab l h1 h2 hidx0 hne hall
    have hidx : ctx.curr_tab_index < ctx.tabs.length := by
      by_contra hx
      rw [List.getElem?_eq_none (by omega)] at h1
      cases h1
    have hrun := selectToggleN_run ctx tab l l.contents hidx l.contents.length 0
      (by omega)
    have hl : ({ l with contents := (l.contents.take 0).map toggleSelected ++ l.contents.drop 0,
                        index := min 0 (l.contents.length - 1) } : JoshutoDirList) = l := by
      rw [List.take_zero, List.map_nil, List.nil_append, List.drop_zero,
        Nat.zero_min, ← hidx0]
    rw [hl] at hrun
    have htab : ({ tab with curr_list := some l } : JoshutoTab) = tab := by
      rw [← h2]
    have hctx : setCurrList ctx tab l = ctx := by
      simp only [setCurrList, htab]
      rw [set_getElem?_self h1]
    rw [hctx] at hrun
    rw [hrun]
    have hmap : l.contents.map toggleSelected =
        l.contents.map (fun e => { e with selected := true }) :=
      List.map_congr_left (fun e he => by
        simp [toggleSelected, hall e he])
    rw [hmap]

/-- C10 witness: the toggle/all branches evaluated on a concrete
one-tab, two-entry context. -/
theorem select_toggle_single_irrelevant_witness :
    selectFilesExecute true false
        ⟨false, 0, [⟨none, some ⟨[⟨"a".data, false, false⟩, ⟨"b".data, true, false⟩],
          0, 0, 0, false⟩, none⟩], false, none, []⟩ =
      selectFilesExecute false false
        ⟨false, 0, [⟨none, some ⟨[⟨"a".data, false, false⟩, ⟨"b".data, true, false⟩],
          0, 0, 0, false⟩, none⟩], false, none, []⟩ ∧
    selectFilesExecute true true
        ⟨false, 0, [⟨none, some ⟨[⟨"a".data, false, false⟩, ⟨"b".data, true, false⟩],
          0, 0, 0, false⟩, none⟩], false, none, []⟩ =
      some ⟨false, 0, [⟨none, some ⟨[⟨"a".data, true, false⟩, ⟨"b".data, false, false⟩],
        0, 0, 0, false⟩, none⟩], false, none, []⟩ ∧
    selectFilesExecute false true
        ⟨false, 0, [⟨none, some ⟨[⟨"a".data, false, false⟩, ⟨"b".data, true, false⟩],
          0, 0, 0, false⟩, none⟩], false, none, []⟩ =
      some ⟨false, 0, [⟨none, some ⟨[⟨"a".data, true, false⟩, ⟨"b".data, true, false⟩],
        0, 0, 0, false⟩, none⟩], false, none, []⟩ :=
  ⟨select_toggle_single_irrelevant.1 _,
    (select_toggle_single_irrelevant.2
      ⟨false, 0, [⟨none, some ⟨[⟨"a".data, false, false⟩, ⟨"b".data, true, false⟩],
          0, 0, 0, false⟩, none⟩], false, none, []⟩
      ⟨none, some ⟨[⟨"a".data, false, false⟩, ⟨"b".data, true, false⟩], 0, 0, 0, false⟩, none⟩
      (⟨[⟨"a".data, false, false⟩, ⟨"b".data, true, false⟩], 0, 0, 0, false⟩ : JoshutoDirList) rfl rfl).1,
    (select_toggle_single_irrelevant.2
      ⟨false, 0, [⟨none, some ⟨[⟨"a".data, false, false⟩, ⟨"b".data, true, false⟩],
          0, 0, 0, false⟩, none⟩], false, none, []⟩
      ⟨none, some ⟨[⟨"a".data, false, false⟩, ⟨"b".data, true, false⟩], 0, 0, 0, false⟩, none⟩
      (⟨[⟨"a".data, false, false⟩, ⟨"b".data, true, false⟩], 0, 0, 0, false⟩ : JoshutoDirList) rfl rfl).2⟩

/-- C3 witness: closing the only tab of a concrete idle context delegates to
`quit`; closing tab 1 of a concrete two-tab context removes it and
decrements the index. -/
theorem close_tab_behaviour_witness :
    close_tab ⟨false, 0, [⟨none, none, none⟩], false, none, []⟩ =
      some (.ok (), ⟨true, 0, [⟨none, none, none⟩], false, none, []⟩) ∧
    close_tab ⟨false, 1, [⟨none, none, none⟩, ⟨none, none, none⟩], false, none, []⟩ =
      some (.ok (), ⟨false, 0, [⟨none, none, none⟩], false, none, []⟩) :=
  ⟨(close_tab_behaviour.1 ⟨false, 0, [⟨none, none, none⟩], false, none, []⟩ rfl).1,
    close_tab_behaviour.2
      ⟨false, 1, [⟨none, none, none⟩, ⟨none, none, none⟩], false, none, []⟩
      (by decide) (by decide)⟩

/-- C2 witness: the single-step and two-step runs on a concrete one-tab
context with two unselected entries. -/
theorem select_toggle_marks_run_witness :
    selectFilesExecute true false
        ⟨false, 0, [⟨none, some ⟨[⟨"a".data, false, false⟩, ⟨"b".data, false, false⟩],
          0, 0, 0, false⟩, none⟩], false, none, []⟩ =
      some ⟨false, 0, [⟨none, some ⟨[⟨"a".data, true, false⟩, ⟨"b".data, false, false⟩],
        1, 0, 0, false⟩, none⟩], false, none, []⟩ ∧
    selectToggleN 2
        ⟨false, 0, [⟨none, some ⟨[⟨"a".data, false, false⟩, ⟨"b".data, false, false⟩],
          0, 0, 0, false⟩, none⟩], false, none, []⟩ =
      some ⟨false, 0, [⟨none, some ⟨[⟨"a".data, true, false⟩, ⟨"b".data, true, false⟩],
        1, 0, 0, false⟩, none⟩], false, none, []⟩ :=
  ⟨select_toggle_marks_run.1
      ⟨false, 0, [⟨none, some ⟨[⟨"a".data, false, false⟩, ⟨"b".data, false, false⟩],
          0, 0, 0, false⟩, none⟩], false, none, []⟩
      ⟨none, some ⟨[⟨"a".data, false, false⟩, ⟨"b".data, false, false⟩], 0, 0, 0, false⟩, none⟩
      (⟨[⟨"a".data, false, false⟩, ⟨"b".data, false, false⟩], 0, 0, 0, false⟩ : JoshutoDirList) ⟨"a".data, false, false⟩ rfl rfl rfl,
    select_toggle_marks_run.2
      ⟨false, 0, [⟨none, some ⟨[⟨"a".data, false, false⟩, ⟨"b".data, false, false⟩],
          0, 0, 0, false⟩, none⟩], false, none, []⟩
      ⟨none, some ⟨[⟨"a".data, false, false⟩, ⟨"b".data, false, false⟩], 0, 0, 0, false⟩, none⟩
      (⟨[⟨"a".data, false, false⟩, ⟨"b".data, false, false⟩], 0, 0, 0, false⟩ : JoshutoDirList) rfl rfl rfl (by decide) (by decide)⟩

end Joshuto


